import Mathlib

/-!
Verification of the LINE sticker editor core against its specification.

The development shallowly embeds the repository's three source modules:
`src/utils/imageUtils.ts` (matting, grid cropping, resize), the `App`
component (collection manager and export pipeline), and
`src/components/StickerEditor.tsx` (touch-up session undo history).
Rasters are modelled as lists of RGBA pixels with integer channels;
geometry is modelled over the rationals, matching the exact arithmetic
of the JavaScript floating-point expressions on the inputs considered.
-/

namespace LineEditor

/-- The background-removal mode, from `src/types.ts`:
`type RemovalMode = 'white' | 'black' | 'none'`. -/
inductive RemovalMode
  | white
  | black
  | none
deriving DecidableEq, Repr

/-- One RGBA pixel of an `ImageData` buffer (`data[i]`, `data[i+1]`,
`data[i+2]`, `data[i+3]`); channel values of real buffers lie in `0..255`. -/
structure Pixel where
  r : ℤ
  g : ℤ
  b : ℤ
  a : ℤ
deriving DecidableEq, Repr

/-- The per-pixel classification of `removeBackground`
(`src/utils/imageUtils.ts`, lines 58–65): the `shouldBeTransparent`
flag computed from the mode and the three colour channels. -/
def shouldBeTransparent (mode : RemovalMode) (threshold : ℤ) (r g b : ℤ) : Bool :=
  match mode with
  | RemovalMode.white => decide (r > threshold) && decide (g > threshold) && decide (b > threshold)
  | RemovalMode.black => decide (r < threshold) && decide (g < threshold) && decide (b < threshold)
  | RemovalMode.none => false

/-- The body of the pixel loop of `removeBackground`: when the pixel is
classified as background its alpha byte is set to `0`, otherwise the pixel
is written back unchanged. -/
def mattePixel (mode : RemovalMode) (threshold : ℤ) (p : Pixel) : Pixel :=
  if shouldBeTransparent mode threshold p.r p.g p.b then { p with a := 0 } else p

/-- Function `removeBackground(image, mode, threshold)` from `src/utils/imageUtils.ts`:
the source is drawn onto a fresh canvas; when `mode !== 'none'` every pixel of
the image data is run through the threshold classifier; for `mode === 'none'`
the pixel loop is skipped and the drawn source is returned as-is. -/
def removeBackground (image : List Pixel) (mode : RemovalMode) (threshold : ℤ) : List Pixel :=
  if mode = RemovalMode.none then image
  else image.map (mattePixel mode threshold)

/-- A pixel has all channels in the byte range `0..255`, as every pixel of a
decoded `ImageData` buffer does. -/
def Pixel.valid (p : Pixel) : Prop :=
  0 ≤ p.r ∧ p.r ≤ 255 ∧ 0 ≤ p.g ∧ p.g ≤ 255 ∧ 0 ≤ p.b ∧ p.b ≤ 255

instance (p : Pixel) : Decidable p.valid := by
  unfold Pixel.valid
  infer_instance

/-- The source rectangle of one grid cell, i.e. the four source arguments of
the `ctx.drawImage(image, c * cellWidth, r * cellHeight, cellWidth, cellHeight, ...)`
call in `cropImageGrid`. -/
structure CellRect where
  x : ℚ
  y : ℚ
  w : ℚ
  h : ℚ
deriving DecidableEq, Repr

/-- Function `cropImageGrid(image, rows, cols)` from `src/utils/imageUtils.ts`:
`cellWidth = image.width / cols`, `cellHeight = image.height / rows`, and the
nested loops (`r` outer, `c` inner) cut one cell per iteration at source
rectangle `(c * cellWidth, r * cellHeight, cellWidth, cellHeight)`, pushing
the resulting blobs in loop order.  The model records each cell's source
rectangle; the happy path is modelled (`getContext` succeeds for every cell). -/
def cropImageGrid (width height : ℚ) (rows cols : ℕ) : List CellRect :=
  let cellWidth := width / cols
  let cellHeight := height / rows
  (List.range rows).flatMap (fun (r : ℕ) =>
    (List.range cols).map (fun (c : ℕ) =>
      { x := (c : ℚ) * cellWidth, y := (r : ℚ) * cellHeight,
        w := cellWidth, h := cellHeight }))

/-- The geometry computed by `resizeToLineSpec` (`src/utils/imageUtils.ts`,
lines 88–103): the output canvas dimensions, the scaled draw size and the
centring offsets passed to `ctx.drawImage(img, x, y, drawW, drawH)`. -/
structure ResizeResult where
  width : ℚ
  height : ℚ
  drawW : ℚ
  drawH : ℚ
  x : ℚ
  y : ℚ
deriving DecidableEq, Repr

/-- Function `resizeToLineSpec(blob, targetWidth, targetHeight, padding = 10)`:
`usableW = targetWidth - padding * 2`, `usableH = targetHeight - padding * 2`,
`scale = Math.min(usableW / img.width, usableH / img.height)`,
`drawW = img.width * scale`, `drawH = img.height * scale`, and the source is
drawn at `x = (targetWidth - drawW) / 2`, `y = (targetHeight - drawH) / 2` on a
canvas of exactly the target dimensions. -/
def resizeToLineSpec (srcW srcH targetWidth targetHeight padding : ℚ) : ResizeResult :=
  let usableW := targetWidth - padding * 2
  let usableH := targetHeight - padding * 2
  let scale := min (usableW / srcW) (usableH / srcH)
  let drawW := srcW * scale
  let drawH := srcH * scale
  { width := targetWidth, height := targetHeight,
    drawW := drawW, drawH := drawH,
    x := (targetWidth - drawW) / 2, y := (targetHeight - drawH) / 2 }

/-- A raster blob (decoded pixel content); export and the collection manager
treat blobs opaquely. -/
abbrev Blob := List Pixel

/-- Item status from `src/types.ts`:
`status: 'pending' | 'processing' | 'done' | 'error'`. -/
inductive Status
  | pending
  | processing
  | done
  | error
deriving DecidableEq, Repr

/-- Per-item matting settings (`settings: { mode, threshold }` in
`src/types.ts`). -/
structure ItemSettings where
  mode : RemovalMode
  threshold : ℤ
deriving DecidableEq, Repr

/-- Interface `StickerItem` from `src/types.ts`.  Opaque strings and URLs (ids, object
URLs, the original `File`) are modelled by natural-number tokens; the optional
`isMain` / `isTab` fields default to `false`, matching the truthiness tests the
code applies to them. -/
structure StickerItem where
  id : ℕ
  originalFile : Option ℕ
  previewUrl : ℕ
  processedBlob : Option Blob
  processedUrl : Option ℕ
  status : Status
  isMain : Bool
  isTab : Bool
  settings : ItemSettings
deriving DecidableEq, Repr

/-- Function `createStickerItem(url, file = null, blob = null)` from the `App`
component: `processedBlob: blob`, `processedUrl: blob ? url : null`,
`status: blob ? 'done' : 'pending'`, default settings
`{ mode: 'white', threshold: 240 }`. -/
def createStickerItem (id : ℕ) (url : ℕ) (file : Option ℕ) (blob : Option Blob) : StickerItem :=
  { id := id
    originalFile := file
    previewUrl := url
    processedBlob := blob
    processedUrl := if blob.isSome then some url else Option.none
    status := if blob.isSome then Status.done else Status.pending
    isMain := false
    isTab := false
    settings := { mode := RemovalMode.white, threshold := 240 } }

/-- Sticker pack type from `src/types.ts`:
`type StickerSetType = 'standard' | 'fullscreen'`. -/
inductive StickerSetType
  | standard
  | fullscreen
deriving DecidableEq, Repr

/-- Interface `StickerPackConfig` from `src/types.ts`; the UI only ever assigns
`count ∈ {8, 16, 24, 32, 40}`, which theorems take as a hypothesis. -/
structure StickerPackConfig where
  count : ℕ
  type : StickerSetType
deriving DecidableEq, Repr

/-- The `App` component state relevant to export: the sticker list, the pack
configuration, and the `isExporting` / `exportProgress` reactive values. -/
structure AppState where
  stickers : List StickerItem
  config : StickerPackConfig
  isExporting : Bool
  exportProgress : ℤ
deriving DecidableEq, Repr

/-- One named artifact handed to the archiver by `handleExport`: the zip entry
name, the item whose `processedBlob` was read for it, and the target
dimensions passed to `resizeToLineSpec` (which, by `resizeToLineSpec`'s
geometry, are exactly the artifact's pixel dimensions). -/
structure ExportArtifact where
  filename : String
  source : StickerItem
  width : ℕ
  height : ℕ
deriving DecidableEq, Repr

/-- The filter predicate of `handleExport`:
`stickers.filter(s => s.status === 'done' && s.processedBlob)`. -/
def donePred (s : StickerItem) : Bool :=
  decide (s.status = Status.done) && s.processedBlob.isSome

/-- JavaScript `String.prototype.padStart(targetLength, padChar)`: pad on the
left up to the target length (a no-op when the string is already long
enough). -/
def padStart (target : ℕ) (c : Char) (s : String) : String :=
  String.mk (List.replicate (target - s.length) c) ++ s

/-- The sticker filename of export step `i` (0-based loop index):
`` `${(i + 1).toString().padStart(2, '0')}.png` ``. -/
def seqFilename (i : ℕ) : String :=
  padStart 2 '0' (toString (i + 1)) ++ ".png"

/-- Function `handleExport` from the `App` component.  Returns the post-call component
state together with the artifact list handed to the archiver (`Option.none`
when the early zero-done-items return fires).  Mirrors the source: the done
filter, the `stickers.find(s => s.isMain) || doneStickers[0]` resolution (and
its `isTab` twin), `exportCount = Math.min(doneStickers.length, config.count)`,
the per-type target sizes, the numbered-sticker loop, and `main.png` /
`tab.png`; the `finally` block leaves `isExporting = false` and
`exportProgress = 0`. -/
def handleExport (st : AppState) : AppState × Option (List ExportArtifact) :=
  let doneStickers := st.stickers.filter donePred
  match doneStickers with
  | [] => (st, Option.none)
  | d0 :: _ =>
      let mainItem := (st.stickers.find? (fun s => s.isMain)).getD d0
      let tabItem := (st.stickers.find? (fun s => s.isTab)).getD d0
      let exportCount := min doneStickers.length st.config.count
      let targetW : ℕ := if st.config.type = StickerSetType.fullscreen then 480 else 370
      let targetH : ℕ := if st.config.type = StickerSetType.fullscreen then 480 else 320
      let mainSize : ℕ := if st.config.type = StickerSetType.fullscreen then 480 else 240
      let stickerFiles := (List.range exportCount).map (fun i =>
        { filename := seqFilename i
          source := doneStickers.getD i d0
          width := targetW
          height := targetH : ExportArtifact })
      let arts := stickerFiles ++
        [{ filename := "main.png", source := mainItem, width := mainSize, height := mainSize },
         { filename := "tab.png", source := tabItem, width := 96, height := 74 }]
      ({ st with isExporting := false, exportProgress := 0 }, some arts)

/-- Outcome of the `try`/`catch`/`finally` of `handleExport` (lines 151–176):
`handleExport` above resolves which items the resize steps read; each
`resizeToLineSpec(item.processedBlob!, ...)` call *throws* when that blob is
null (`URL.createObjectURL(null)` is a `TypeError`), the `catch` alerts,
`zip.generateAsync` is never reached — so no archive is produced, not even a
partial one — and the `finally` leaves `isExporting = false` and
`exportProgress = 0` either way.  Since every numbered sticker's source comes
from the done filter (which demands a non-null blob), the `try` completes
exactly when every read source, the resolved main and tab items included, has
a non-null `processedBlob`. -/
def handleExportArchive (st : AppState) : AppState × Option (List ExportArtifact) :=
  let res := handleExport st
  match res.2 with
  | some arts =>
      if arts.all (fun a => a.source.processedBlob.isSome) then (res.1, some arts)
      else (res.1, Option.none)
  | Option.none => res

/-- The undo-history state of a touch-up session
(`src/components/StickerEditor.tsx`): the `history` array of raster snapshots
(snapshots are modelled by natural-number tokens) and the `historyIdx` cursor,
initialised to `-1` before the first committed edit. -/
structure EditorHistory where
  history : List ℕ
  historyIdx : ℤ
deriving DecidableEq, Repr

/-- The initial editor history: `useState<ImageData[]>([])` and
`useState(-1)`. -/
def initHistory : EditorHistory :=
  { history := [], historyIdx := -1 }

/-- Function `pushHistory` from `StickerEditor` (lines 44–56):
`next = prev.slice(0, historyIdx + 1)`; `if (next.length > 15) next.shift()`;
the new snapshot is appended and
`historyIdx = Math.min(historyIdx + 1, 14)`. -/
def pushHistory (st : EditorHistory) (data : ℕ) : EditorHistory :=
  let next := st.history.take (st.historyIdx + 1).toNat
  let next := if next.length > 15 then next.drop 1 else next
  { history := next ++ [data], historyIdx := min (st.historyIdx + 1) 14 }

/-- Function `handleUndo` from `StickerEditor` (lines 132–142): when `historyIdx > 0`
the cursor moves back one snapshot (whose pixels are put back on the canvas);
otherwise nothing happens. -/
def handleUndo (st : EditorHistory) : EditorHistory :=
  if st.historyIdx > 0 then { st with historyIdx := st.historyIdx - 1 } else st

/-- The history after `n` sequential committed edits in a fresh session
(snapshot `i` pushed at the `i`-th commit). -/
def pushN (n : ℕ) : EditorHistory :=
  (List.range n).foldl (fun st i => pushHistory st i) initHistory

/-- One public operation of the `App` collection manager, as a transition on
the sticker list.

* `upload`: one file appended by `handleFileUpload` via
  `createStickerItem(URL.createObjectURL(file), file)` (a multi-file upload is
  a sequence of these).
* `gridCropItem`: one blob appended by `handleGridUpload` via
  `createStickerItem(url, null, blob)`; the handler marks the very first item
  of an empty collection `isMain = isTab = true`, which the `flag` parameter
  generalises (the flags never affect status or pixels).
* `processStart`: the `status: 'processing'` update at the top of
  `processOne`; `processOne` is only invoked from `processAll`, which guards
  `s.status !== 'done'`.
* `processSuccess` / `processFailure`: the `try` / `catch` completion of
  `processOne`; the failure path runs after the `processing` update and only
  sets `status: 'error'`, leaving `processedBlob` untouched.
* `save`: the `StickerEditor` `onSave` callback, replacing the processed blob,
  URL, status and settings atomically.
* `setRoleMain` / `setRoleTab`: `setRole(id, 'main' | 'tab')`,
  `isMain: s.id === id` (resp. `isTab`).
* `removeItem`: the removal button, `prev.filter(it => it.id !== s.id)`. -/
inductive Step : List StickerItem → List StickerItem → Prop
  | upload (st : List StickerItem) (id url file : ℕ) :
      Step st (st ++ [createStickerItem id url (some file) Option.none])
  | gridCropItem (st : List StickerItem) (id url : ℕ) (blob : Blob) (flag : Bool) :
      Step st (st ++ [{ createStickerItem id url Option.none (some blob) with
                        isMain := flag, isTab := flag }])
  | processStart (st : List StickerItem) (id : ℕ)
      (h : ∀ s ∈ st, s.id = id → s.status ≠ Status.done) :
      Step st (st.map (fun s => if s.id = id then { s with status := Status.processing } else s))
  | processSuccess (st : List StickerItem) (id url : ℕ) (blob : Blob) :
      Step st (st.map (fun s => if s.id = id then
        { s with status := Status.done, processedBlob := some blob, processedUrl := some url }
        else s))
  | processFailure (st : List StickerItem) (id : ℕ)
      (h : ∀ s ∈ st, s.id = id → s.status = Status.processing) :
      Step st (st.map (fun s => if s.id = id then { s with status := Status.error } else s))
  | save (st : List StickerItem) (id url : ℕ) (blob : Blob) (m : RemovalMode) (t : ℤ) :
      Step st (st.map (fun s => if s.id = id then
        { s with processedBlob := some blob, processedUrl := some url,
                 status := Status.done, settings := { mode := m, threshold := t } }
        else s))
  | setRoleMain (st : List StickerItem) (id : ℕ) :
      Step st (st.map (fun s => { s with isMain := decide (s.id = id) }))
  | setRoleTab (st : List StickerItem) (id : ℕ) :
      Step st (st.map (fun s => { s with isTab := decide (s.id = id) }))
  | removeItem (st : List StickerItem) (id : ℕ) :
      Step st (st.filter (fun s => decide (s.id ≠ id)))

/-- The collection states reachable from the empty initial collection
(`useState<StickerItem[]>([])`) by sequences of public operations. -/
inductive Reachable : List StickerItem → Prop
  | nil : Reachable []
  | step {st st' : List StickerItem} : Reachable st → Step st st' → Reachable st'

/-- A processed (done) item with no role flags, as produced by uploading an
image and processing it. -/
def c1DoneItem : StickerItem :=
  { id := 0, originalFile := Option.none, previewUrl := 0
    processedBlob := some [], processedUrl := some 0, status := Status.done
    isMain := false, isTab := false
    settings := { mode := RemovalMode.white, threshold := 240 } }

/-- A still-pending item that the user flagged as main via
`setRole(id, 'main')` — the role buttons are not restricted to done items. -/
def c1PendingMain : StickerItem :=
  { id := 1, originalFile := some 1, previewUrl := 1
    processedBlob := Option.none, processedUrl := Option.none, status := Status.pending
    isMain := true, isTab := false
    settings := { mode := RemovalMode.white, threshold := 240 } }

/-- A collection with one done item and a pending item flagged `isMain`;
export proceeds (one done item) but resolves the main image from the pending
item, because `stickers.find(s => s.isMain)` searches the whole collection,
not the done subset. -/
def c1State : AppState :=
  { stickers := [c1DoneItem, c1PendingMain]
    config := { count := 16, type := StickerSetType.standard }
    isExporting := false, exportProgress := 0 }

/-- Spec-side sticker dimensions, following the spec's words:
`fullscreen → 480×480`, `standard → 370×320`. -/
def specStickerSize : StickerSetType → ℕ × ℕ
  | StickerSetType.fullscreen => (480, 480)
  | StickerSetType.standard => (370, 320)

/-- Spec-side main-image dimension, following the spec's words:
`fullscreen → 480`, `standard → 240` (square). -/
def specMainSize : StickerSetType → ℕ
  | StickerSetType.fullscreen => 480
  | StickerSetType.standard => 240

/-- Spec-side sequence filename for the 1-based index `i`, following the
spec's words: a 2-digit zero-padded sequence number, `01.png`, `02.png`, …. -/
def specSeqFilename (i : ℕ) : String :=
  (if i < 10 then "0" ++ toString i else toString i) ++ ".png"

lemma mattePixel_eq_ite (mode : RemovalMode) (t : ℤ) (p : Pixel) :
    mattePixel mode t p =
      if (mode = RemovalMode.white ∧ p.r > t ∧ p.g > t ∧ p.b > t)
          ∨ (mode = RemovalMode.black ∧ p.r < t ∧ p.g < t ∧ p.b < t)
        then { p with a := 0 } else p := by
  cases mode with
  | white =>
    by_cases h : p.r > t ∧ p.g > t ∧ p.b > t
    · obtain ⟨h1, h2, h3⟩ := h
      simp [mattePixel, shouldBeTransparent, h1, h2, h3]
    · have hb : shouldBeTransparent RemovalMode.white t p.r p.g p.b = false := by
        rcases not_and_or.mp h with h1 | h23
        · simp [shouldBeTransparent, h1]
        · rcases not_and_or.mp h23 with h2 | h3
          · simp [shouldBeTransparent, h2]
          · simp [shouldBeTransparent, h3]
      have hnp : ¬ ((RemovalMode.white = RemovalMode.white ∧ p.r > t ∧ p.g > t ∧ p.b > t)
          ∨ (RemovalMode.white = RemovalMode.black ∧ p.r < t ∧ p.g < t ∧ p.b < t)) := by
        rintro (⟨-, hc⟩ | ⟨hc, -⟩)
        · exact h hc
        · exact RemovalMode.noConfusion hc
      unfold mattePixel
      rw [hb, if_neg hnp]
      simp
  | black =>
    by_cases h : p.r < t ∧ p.g < t ∧ p.b < t
    · obtain ⟨h1, h2, h3⟩ := h
      simp [mattePixel, shouldBeTransparent, h1, h2, h3]
    · have hb : shouldBeTransparent RemovalMode.black t p.r p.g p.b = false := by
        rcases not_and_or.mp h with h1 | h23
        · simp [shouldBeTransparent, h1]
        · rcases not_and_or.mp h23 with h2 | h3
          · simp [shouldBeTransparent, h2]
          · simp [shouldBeTransparent, h3]
      have hnp : ¬ ((RemovalMode.black = RemovalMode.white ∧ p.r > t ∧ p.g > t ∧ p.b > t)
          ∨ (RemovalMode.black = RemovalMode.black ∧ p.r < t ∧ p.g < t ∧ p.b < t)) := by
        rintro (⟨hc, -⟩ | ⟨-, hc⟩)
        · exact RemovalMode.noConfusion hc
        · exact h hc
      unfold mattePixel
      rw [hb, if_neg hnp]
      simp
  | none =>
    have hnp : ¬ ((RemovalMode.none = RemovalMode.white ∧ p.r > t ∧ p.g > t ∧ p.b > t)
        ∨ (RemovalMode.none = RemovalMode.black ∧ p.r < t ∧ p.g < t ∧ p.b < t)) := by
      rintro (⟨hc, -⟩ | ⟨hc, -⟩) <;> exact RemovalMode.noConfusion hc
    simp [mattePixel, shouldBeTransparent, hnp]

/-- C3.  `removeBackground` classifies purely per pixel: the output has the
same length as the input, and the pixel at each index `i` is a function of the
input pixel at index `i` alone — alpha is zeroed exactly when `mode = 'white'`
and all three channels strictly exceed the threshold, or `mode = 'black'` and
all three channels are strictly below it; in every other case the pixel
(alpha included) is returned unchanged. -/
theorem removeBackground_classifies_per_pixel
    (image : List Pixel) (mode : RemovalMode) (t : ℤ) :
    (removeBackground image mode t).length = image.length ∧
    ∀ (i : ℕ) (p : Pixel), image[i]? = some p →
      (removeBackground image mode t)[i]? =
        some (if (mode = RemovalMode.white ∧ p.r > t ∧ p.g > t ∧ p.b > t)
                  ∨ (mode = RemovalMode.black ∧ p.r < t ∧ p.g < t ∧ p.b < t)
               then { p with a := 0 } else p) := by
  unfold removeBackground
  by_cases hm : mode = RemovalMode.none
  · subst hm
    refine ⟨by simp, ?_⟩
    intro i p hp
    simp [hp]
  · rw [if_neg hm]
    refine ⟨by simp, ?_⟩
    intro i p hp
    rw [List.getElem?_map, hp, Option.map_some', mattePixel_eq_ite]

/-- Witness for C3 at a concrete image, mode and threshold. -/
theorem removeBackground_classifies_per_pixel_witness :
    (removeBackground [⟨250, 250, 250, 255⟩, ⟨10, 20, 30, 255⟩] RemovalMode.white 240).length
        = 2 ∧
      (removeBackground [⟨250, 250, 250, 255⟩, ⟨10, 20, 30, 255⟩] RemovalMode.white 240)[0]? =
        some ⟨250, 250, 250, 0⟩ := by
  have h := removeBackground_classifies_per_pixel
    [⟨250, 250, 250, 255⟩, ⟨10, 20, 30, 255⟩] RemovalMode.white 240
  refine ⟨h.1, ?_⟩
  have h0 := h.2 0 ⟨250, 250, 250, 255⟩ (by decide)
  rw [h0]
  decide

/-- Counterexample for C4 as frozen: with `mode = 'none'` the source is
returned pixel-for-pixel unchanged, but its alpha is *not* fully opaque — a
source pixel that is already transparent stays transparent, refuting the
"every output pixel's alpha fully opaque" conjunct. -/
theorem removeBackground_none_opaque_counterexample :
    removeBackground [⟨10, 20, 30, 0⟩] RemovalMode.none 128 = [⟨10, 20, 30, 0⟩] ∧
      ¬ ∀ p ∈ removeBackground [⟨10, 20, 30, 0⟩] RemovalMode.none 128, p.a = 255 := by
  decide

/-- C4 (amended).  For every image and every threshold,
`removeBackground(img, 'none', t)` is the source unchanged, pixel-for-pixel
equal to `img` — each output pixel's alpha equal to the corresponding source
pixel's alpha rather than forced opaque. -/
theorem removeBackground_none_id (image : List Pixel) (t : ℤ) :
    removeBackground image RemovalMode.none t = image := by
  simp [removeBackground]

/-- C10.  Because both comparisons are strict and channel values lie in
`0..255`, the white mode at any threshold `≥ 255` and the black mode at any
threshold `≤ 0` leave every pixel of every input image unchanged. -/
theorem removeBackground_threshold_extremes (image : List Pixel) (t : ℤ)
    (hv : ∀ p ∈ image, p.valid) :
    (255 ≤ t → removeBackground image RemovalMode.white t = image) ∧
      (t ≤ 0 → removeBackground image RemovalMode.black t = image) := by
  have fix : ∀ (mode : RemovalMode) (l : List Pixel),
      (∀ p ∈ l, mattePixel mode t p = p) → removeBackground l mode t = l := by
    intro mode l hfix
    unfold removeBackground
    split_ifs with hm
    · rfl
    · have : l.map (mattePixel mode t) = l.map id := List.map_congr_left hfix
      rw [this, List.map_id]
  constructor
  · intro ht
    refine fix _ _ (fun p hp => ?_)
    have hpv := hv p hp
    have hr : ¬ (p.r > t) := by
      have := hpv.2.1
      omega
    unfold mattePixel shouldBeTransparent
    rw [decide_eq_false hr]
    simp
  · intro ht
    refine fix _ _ (fun p hp => ?_)
    have hpv := hv p hp
    have hr : ¬ (p.r < t) := by
      have := hpv.1
      omega
    unfold mattePixel shouldBeTransparent
    rw [decide_eq_false hr]
    simp

/-- Witness for C10 at a concrete image and the extreme thresholds. -/
theorem removeBackground_threshold_extremes_witness :
    (255 ≤ (255 : ℤ) →
        removeBackground [⟨255, 255, 255, 9⟩] RemovalMode.white 255 = [⟨255, 255, 255, 9⟩]) ∧
      ((255 : ℤ) ≤ 0 →
        removeBackground [⟨255, 255, 255, 9⟩] RemovalMode.black 255 = [⟨255, 255, 255, 9⟩]) :=
  removeBackground_threshold_extremes [⟨255, 255, 255, 9⟩] 255 (by decide)

/-- C5.  For every source image of positive dimensions and every target box,
`resizeToLineSpec` outputs exactly the target dimensions; the uniform scale is
`min((targetW - 2*padding)/srcW, (targetH - 2*padding)/srcH)`, so the drawn
content never exceeds the usable box; and the content is centred at
`x = (targetW - drawW)/2`, `y = (targetH - drawH)/2`.  Determinism is
immediate: `resizeToLineSpec` is a pure function of its arguments. -/
theorem resizeToLineSpec_containment (srcW srcH targetW targetH padding : ℚ)
    (hw : 0 < srcW) (hh : 0 < srcH) :
    (resizeToLineSpec srcW srcH targetW targetH padding).width = targetW ∧
    (resizeToLineSpec srcW srcH targetW targetH padding).height = targetH ∧
    (resizeToLineSpec srcW srcH targetW targetH padding).drawW =
      srcW * min ((targetW - 2 * padding) / srcW) ((targetH - 2 * padding) / srcH) ∧
    (resizeToLineSpec srcW srcH targetW targetH padding).drawH =
      srcH * min ((targetW - 2 * padding) / srcW) ((targetH - 2 * padding) / srcH) ∧
    (resizeToLineSpec srcW srcH targetW targetH padding).drawW ≤ targetW - 2 * padding ∧
    (resizeToLineSpec srcW srcH targetW targetH padding).drawH ≤ targetH - 2 * padding ∧
    (resizeToLineSpec srcW srcH targetW targetH padding).x =
      (targetW - (resizeToLineSpec srcW srcH targetW targetH padding).drawW) / 2 ∧
    (resizeToLineSpec srcW srcH targetW targetH padding).y =
      (targetH - (resizeToLineSpec srcW srcH targetW targetH padding).drawH) / 2 := by
  have h2 : ∀ q : ℚ, q - padding * 2 = q - 2 * padding := by intro q; ring
  refine ⟨rfl, rfl, ?_, ?_, ?_, ?_, rfl, rfl⟩
  · show srcW * min ((targetW - padding * 2) / srcW) ((targetH - padding * 2) / srcH) = _
    rw [h2, h2]
  · show srcH * min ((targetW - padding * 2) / srcW) ((targetH - padding * 2) / srcH) = _
    rw [h2, h2]
  · show srcW * min ((targetW - padding * 2) / srcW) ((targetH - padding * 2) / srcH) ≤ _
    calc srcW * min ((targetW - padding * 2) / srcW) ((targetH - padding * 2) / srcH)
        ≤ srcW * ((targetW - padding * 2) / srcW) :=
          mul_le_mul_of_nonneg_left (min_le_left _ _) hw.le
      _ = targetW - padding * 2 := mul_div_cancel₀ _ hw.ne'
      _ = targetW - 2 * padding := h2 _
  · show srcH * min ((targetW - padding * 2) / srcW) ((targetH - padding * 2) / srcH) ≤ _
    calc srcH * min ((targetW - padding * 2) / srcW) ((targetH - padding * 2) / srcH)
        ≤ srcH * ((targetH - padding * 2) / srcH) :=
          mul_le_mul_of_nonneg_left (min_le_right _ _) hh.le
      _ = targetH - padding * 2 := mul_div_cancel₀ _ hh.ne'
      _ = targetH - 2 * padding := h2 _

/-- Witness for C5: a 100×50 source resized into the 370×320 standard sticker
box with the default padding of 10. -/
theorem resizeToLineSpec_containment_witness :
    (resizeToLineSpec 100 50 370 320 10).width = 370 ∧
    (resizeToLineSpec 100 50 370 320 10).height = 320 ∧
    (resizeToLineSpec 100 50 370 320 10).drawW =
      100 * min ((370 - 2 * 10) / 100) ((320 - 2 * 10) / 50) ∧
    (resizeToLineSpec 100 50 370 320 10).drawH =
      50 * min ((370 - 2 * 10) / 100) ((320 - 2 * 10) / 50) ∧
    (resizeToLineSpec 100 50 370 320 10).drawW ≤ 370 - 2 * 10 ∧
    (resizeToLineSpec 100 50 370 320 10).drawH ≤ 320 - 2 * 10 ∧
    (resizeToLineSpec 100 50 370 320 10).x =
      (370 - (resizeToLineSpec 100 50 370 320 10).drawW) / 2 ∧
    (resizeToLineSpec 100 50 370 320 10).y =
      (320 - (resizeToLineSpec 100 50 370 320 10).drawH) / 2 :=
  resizeToLineSpec_containment 100 50 370 320 10 (by norm_num) (by norm_num)

/-- C2: the code retains 16 snapshots, not 15.  After 16 sequential committed
edits in a fresh touch-up session the history holds 16 snapshots; after a 17th
it still holds 16, the very first snapshot (token `0`) is still at position 0
(the oldest is never evicted — `next.length > 15` can never hold because
`historyIdx` is capped at 14, so `next` has at most 15 elements), and the
index sits at 14. -/
theorem pushHistory_retains_sixteen :
    (pushN 16).history.length = 16 ∧
      (pushN 17).history.length = 16 ∧
      (pushN 17).history[0]? = some 0 ∧
      (pushN 17).historyIdx = 14 := by
  decide

lemma donePred_status {x : StickerItem} (hx : donePred x = true) :
    x.status = Status.done := by
  simp only [donePred, Bool.and_eq_true, decide_eq_true_eq] at hx
  exact hx.1

/-- The unfolded form of `handleExport` when the done filter is non-empty. -/
lemma handleExport_eq_of_filter_cons (st : AppState) (d0 : StickerItem)
    (rest : List StickerItem) (hd : st.stickers.filter donePred = d0 :: rest) :
    handleExport st =
      ({ st with isExporting := false, exportProgress := 0 },
        some
          (((List.range (min (d0 :: rest).length st.config.count)).map (fun i =>
              { filename := seqFilename i
                source := (d0 :: rest).getD i d0
                width := if st.config.type = StickerSetType.fullscreen then 480 else 370
                height := if st.config.type = StickerSetType.fullscreen then 480 else 320
                : ExportArtifact })) ++
            [{ filename := "main.png"
               source := (st.stickers.find? (fun s => s.isMain)).getD d0
               width := if st.config.type = StickerSetType.fullscreen then 480 else 240
               height := if st.config.type = StickerSetType.fullscreen then 480 else 240 },
             { filename := "tab.png"
               source := (st.stickers.find? (fun s => s.isTab)).getD d0
               width := 96, height := 74 }])) := by
  unfold handleExport
  rw [hd]

/-- C8.  If no item has status `'done'`, `handleExport` returns before any
side effect: no archive is produced (not even partially) and the component
state — the sticker collection, `exportProgress` and `isExporting` — is
exactly what it was. -/
theorem handleExport_no_done_noop (st : AppState)
    (h : ∀ s ∈ st.stickers, s.status ≠ Status.done) :
    handleExport st = (st, Option.none) := by
  have hf : st.stickers.filter donePred = [] := by
    rw [List.filter_eq_nil_iff]
    intro s hs
    simp [donePred, h s hs]
  unfold handleExport
  rw [hf]

/-- Witness for C8: an export attempt on a collection whose items are all
`pending` or `error`. -/
theorem handleExport_no_done_noop_witness :
    handleExport
        { stickers := [createStickerItem 0 0 (some 0) Option.none,
            { createStickerItem 1 1 (some 1) Option.none with status := Status.error }]
          config := { count := 16, type := StickerSetType.standard }
          isExporting := false, exportProgress := 0 } =
      ({ stickers := [createStickerItem 0 0 (some 0) Option.none,
            { createStickerItem 1 1 (some 1) Option.none with status := Status.error }]
         config := { count := 16, type := StickerSetType.standard }
         isExporting := false, exportProgress := 0 }, Option.none) :=
  handleExport_no_done_noop _ (by decide)

/-- Counterexample for C1 as frozen: in `c1State` export runs to the resize
steps (the artifact list is produced), yet the `main.png` raster is read from
an item whose status is `'pending'`, not `'done'`. -/
theorem export_reads_nondone_counterexample :
    (handleExport c1State).2.isSome = true ∧
      ∃ a ∈ (handleExport c1State).2.getD [],
        a.filename = "main.png" ∧ a.source.status = Status.pending := by
  decide

/-- C1 (amended).  When export runs to the resize steps, every numbered
sticker raster comes from a done item; the main (resp. tab) image is resolved
as the first item flagged `isMain` (resp. `isTab`) *among all items regardless
of status*, falling back to the first done item only when no item carries the
flag — so the main/tab raster is guaranteed to come from a done item only in
that fallback case. -/
theorem export_reads_resolution (st : AppState) (arts : List ExportArtifact)
    (h : (handleExport st).2 = some arts) :
    (∀ a ∈ arts, a.filename ≠ "main.png" → a.filename ≠ "tab.png" →
        a.source.status = Status.done) ∧
      ((∀ s ∈ st.stickers, s.isMain = false) →
        ∀ a ∈ arts, a.filename = "main.png" → a.source.status = Status.done) ∧
      ((∀ s ∈ st.stickers, s.isTab = false) →
        ∀ a ∈ arts, a.filename = "tab.png" → a.source.status = Status.done) := by
  cases hd : st.stickers.filter donePred with
  | nil =>
      rw [show handleExport st = (st, Option.none) by unfold handleExport; rw [hd]] at h
      exact absurd h (by simp)
  | cons d0 rest =>
      rw [handleExport_eq_of_filter_cons st d0 rest hd] at h
      have harts := (Option.some.inj h).symm
      have hall : ∀ x ∈ d0 :: rest, x.status = Status.done := by
        intro x hx
        have hx' : x ∈ st.stickers.filter donePred := by rw [hd]; exact hx
        exact donePred_status (List.mem_filter.mp hx').2
      have hdone_d0 : d0.status = Status.done := hall d0 (List.mem_cons_self d0 rest)
      have hnum : ∀ i : ℕ, ((d0 :: rest).getD i d0).status = Status.done := by
        intro i
        by_cases hi : i < (d0 :: rest).length
        · refine hall _ ?_
          rw [List.getD_eq_getElem?_getD, List.getElem?_eq_getElem hi]
          simp only [Option.getD_some]
          exact List.getElem_mem hi
        · rw [List.getD_eq_getElem?_getD, List.getElem?_eq_none (by omega)]
          exact hdone_d0
      refine ⟨?_, ?_, ?_⟩
      · intro a ha hm ht
        rw [harts] at ha
        rcases List.mem_append.mp ha with hs | hmt
        · obtain ⟨i, _, rfl⟩ := List.mem_map.mp hs
          exact hnum i
        · simp only [List.mem_cons, List.not_mem_nil, or_false] at hmt
          rcases hmt with rfl | rfl
          · exact absurd rfl hm
          · exact absurd rfl ht
      · intro hflag a ha hm
        rw [harts] at ha
        rcases List.mem_append.mp ha with hs | hmt
        · obtain ⟨i, _, rfl⟩ := List.mem_map.mp hs
          exact hnum i
        · simp only [List.mem_cons, List.not_mem_nil, or_false] at hmt
          rcases hmt with rfl | rfl
          · have hfind : st.stickers.find? (fun s => s.isMain) = Option.none :=
              List.find?_eq_none.mpr (fun x hx => by simp [hflag x hx])
            simp only [hfind, Option.getD_none]
            exact hdone_d0
          · have hne : ("tab.png" : String) ≠ "main.png" := by decide
            exact absurd hm hne
      · intro hflag a ha ht
        rw [harts] at ha
        rcases List.mem_append.mp ha with hs | hmt
        · obtain ⟨i, _, rfl⟩ := List.mem_map.mp hs
          exact hnum i
        · simp only [List.mem_cons, List.not_mem_nil, or_false] at hmt
          rcases hmt with rfl | rfl
          · have hne : ("main.png" : String) ≠ "tab.png" := by decide
            exact absurd ht hne
          · have hfind : st.stickers.find? (fun s => s.isTab) = Option.none :=
              List.find?_eq_none.mpr (fun x hx => by simp [hflag x hx])
            simp only [hfind, Option.getD_none]
            exact hdone_d0

/-- Witness for C1 (amended), at the counterexample state: export succeeds
there and every numbered sticker artifact of `c1State` comes from a done
item. -/
theorem export_reads_resolution_witness :
    (handleExport c1State).2 = some ((handleExport c1State).2.getD []) ∧
      (∀ a ∈ (handleExport c1State).2.getD [],
        a.filename ≠ "main.png" → a.filename ≠ "tab.png" →
        a.source.status = Status.done) :=
  ⟨by decide,
    (export_reads_resolution c1State ((handleExport c1State).2.getD []) (by decide)).1⟩

lemma seqFilename_two_digit : ∀ i, i < 40 → seqFilename i = specSeqFilename (i + 1) := by
  decide

/-- Signature of the artifact list built by the resolution stage of export
(`handleExport`) when at least one item is done: `min(doneCount, count)`
numbered names with the per-type sticker dimensions, then `main.png` and
`tab.png` with theirs. -/
lemma handleExport_stage_artifacts (st : AppState)
    (hcount : st.config.count = 8 ∨ st.config.count = 16 ∨ st.config.count = 24
      ∨ st.config.count = 32 ∨ st.config.count = 40)
    (hn : 1 ≤ (st.stickers.filter donePred).length) :
    ∃ arts, (handleExport st).2 = some arts ∧
      arts.map (fun a => (a.filename, a.width, a.height)) =
        (List.range (min (st.stickers.filter donePred).length st.config.count)).map
          (fun i => (specSeqFilename (i + 1),
            (specStickerSize st.config.type).1, (specStickerSize st.config.type).2))
        ++ [("main.png", specMainSize st.config.type, specMainSize st.config.type),
            ("tab.png", 96, 74)] := by
  cases hd : st.stickers.filter donePred with
  | nil => rw [hd] at hn; exact absurd hn (by simp)
  | cons d0 rest =>
      refine ⟨_, congrArg Prod.snd (handleExport_eq_of_filter_cons st d0 rest hd), ?_⟩
      rw [List.map_append, List.map_map]
      congr 1
      · refine List.map_congr_left (fun i hi => ?_)
        have hi40 : i < 40 := by
          have h1 : i < min (d0 :: rest).length st.config.count := List.mem_range.mp hi
          have h2 : min (d0 :: rest).length st.config.count ≤ st.config.count :=
            min_le_right _ _
          rcases hcount with hc | hc | hc | hc | hc <;> omega
        have hname := seqFilename_two_digit i hi40
        cases htype : st.config.type <;>
          simp [Function.comp, hname, htype, specStickerSize]
      · cases htype : st.config.type <;> simp [htype, specMainSize]

/-- Counterexample for C6 as frozen: `c1State` has one done item and the
valid count 16, yet export produces no artifacts at all — the flagged main
item is pending with a null `processedBlob`, so the main resize throws and
the catch discards the run. -/
theorem handleExportArchive_fails_counterexample :
    1 ≤ (c1State.stickers.filter donePred).length ∧
      c1State.config.count = 16 ∧
      (handleExportArchive c1State).2 = Option.none := by
  decide

/-- C6 (amended).  For every collection with at least one done item and every
valid `PackConfig` count, *provided every item flagged `isMain` or `isTab` has
a non-null processed raster* (in particular whenever the flagged items are
done, or no item is flagged), export produces exactly
`exportCount = min(doneCount, config.count)` numbered sticker artifacts — the
`i`-th (1-based) named by the 2-digit zero-padded sequence number and sized
per type (`fullscreen → 480×480`, `standard → 370×320`) — plus `main.png`
(480 fullscreen / 240 standard, square) and `tab.png` at 96×74.  When a
flagged item's raster is null the resize step throws instead and no artifacts
are produced. -/
theorem handleExportArchive_artifact_spec (st : AppState)
    (hcount : st.config.count = 8 ∨ st.config.count = 16 ∨ st.config.count = 24
      ∨ st.config.count = 32 ∨ st.config.count = 40)
    (hn : 1 ≤ (st.stickers.filter donePred).length)
    (hflag : ∀ s ∈ st.stickers, s.isMain = true ∨ s.isTab = true →
      s.processedBlob.isSome = true) :
    ∃ arts, (handleExportArchive st).2 = some arts ∧
      arts.map (fun a => (a.filename, a.width, a.height)) =
        (List.range (min (st.stickers.filter donePred).length st.config.count)).map
          (fun i => (specSeqFilename (i + 1),
            (specStickerSize st.config.type).1, (specStickerSize st.config.type).2))
        ++ [("main.png", specMainSize st.config.type, specMainSize st.config.type),
            ("tab.png", 96, 74)] := by
  obtain ⟨arts0, harts0, hsig0⟩ := handleExport_stage_artifacts st hcount hn
  refine ⟨arts0, ?_, hsig0⟩
  have hblobs : arts0.all (fun a => a.source.processedBlob.isSome) = true := by
    rw [List.all_eq_true]
    intro a ha
    cases hd : st.stickers.filter donePred with
    | nil =>
        rw [hd] at hn
        exact absurd hn (by simp)
    | cons d0 rest =>
        have hstage := handleExport_eq_of_filter_cons st d0 rest hd
        have harts : arts0 = _ :=
          Option.some.inj (harts0.symm.trans (congrArg Prod.snd hstage))
        have hallb : ∀ x ∈ d0 :: rest, x.processedBlob.isSome = true := by
          intro x hx
          have hx' : x ∈ st.stickers.filter donePred := by rw [hd]; exact hx
          have h := (List.mem_filter.mp hx').2
          simp only [donePred, Bool.and_eq_true] at h
          exact h.2
        have hblob_d0 : d0.processedBlob.isSome = true :=
          hallb d0 (List.mem_cons_self d0 rest)
        rw [harts] at ha
        rcases List.mem_append.mp ha with hs | hmt
        · obtain ⟨i, _, rfl⟩ := List.mem_map.mp hs
          by_cases hi : i < (d0 :: rest).length
          · refine hallb _ ?_
            rw [List.getD_eq_getElem?_getD, List.getElem?_eq_getElem hi]
            simp only [Option.getD_some]
            exact List.getElem_mem hi
          · rw [List.getD_eq_getElem?_getD, List.getElem?_eq_none (by omega)]
            exact hblob_d0
        · simp only [List.mem_cons, List.not_mem_nil, or_false] at hmt
          rcases hmt with rfl | rfl
          · show ((st.stickers.find? (fun s => s.isMain)).getD d0).processedBlob.isSome = true
            cases hf : st.stickers.find? (fun s => s.isMain) with
            | none => simpa using hblob_d0
            | some m =>
                have hm : m.isMain = true := List.find?_some hf
                have hmem := List.mem_of_find?_eq_some hf
                simpa using hflag m hmem (Or.inl hm)
          · show ((st.stickers.find? (fun s => s.isTab)).getD d0).processedBlob.isSome = true
            cases hf : st.stickers.find? (fun s => s.isTab) with
            | none => simpa using hblob_d0
            | some m =>
                have hm : m.isTab = true := List.find?_some hf
                have hmem := List.mem_of_find?_eq_some hf
                simpa using hflag m hmem (Or.inr hm)
  simp only [handleExportArchive]
  rw [harts0]
  simp only [hblobs, if_true]

/-- Witness for C6 (amended): a collection holding a single done item with no
role flags under the standard 16-sticker configuration. -/
theorem handleExportArchive_artifact_spec_witness :
    ∃ arts,
      (handleExportArchive
          { stickers := [c1DoneItem]
            config := { count := 16, type := StickerSetType.standard }
            isExporting := false, exportProgress := 0 }).2 = some arts ∧
      arts.map (fun a => (a.filename, a.width, a.height)) =
        (List.range (min
            (List.filter donePred [c1DoneItem]).length 16)).map
          (fun i => (specSeqFilename (i + 1), (specStickerSize StickerSetType.standard).1,
            (specStickerSize StickerSetType.standard).2))
        ++ [("main.png", specMainSize StickerSetType.standard,
              specMainSize StickerSetType.standard),
            ("tab.png", 96, 74)] :=
  handleExportArchive_artifact_spec
    { stickers := [c1DoneItem]
      config := { count := 16, type := StickerSetType.standard }
      isExporting := false, exportProgress := 0 }
    (by decide) (by decide) (by decide)

lemma cropImageGrid_def (width height : ℚ) (rows cols : ℕ) :
    cropImageGrid width height rows cols =
      (List.range rows).flatMap (fun (r : ℕ) => (List.range cols).map (fun (c : ℕ) =>
        { x := (c : ℚ) * (width / cols), y := (r : ℚ) * (height / rows),
          w := width / cols, h := height / rows })) := by
  simp only [cropImageGrid]

lemma length_flatMap_const {α β : Type} (f : α → List β) (k : ℕ) (l : List α)
    (hf : ∀ a ∈ l, (f a).length = k) : (l.flatMap f).length = l.length * k := by
  induction l with
  | nil => simp
  | cons a t ih =>
      rw [List.flatMap_cons, List.length_append, hf a (List.mem_cons_self a t),
        ih (fun x hx => hf x (List.mem_cons_of_mem a hx)), List.length_cons,
        Nat.succ_mul]
      exact Nat.add_comm _ _

lemma flatMap_range_getElem? {β : Type} (f : ℕ → List β) (k : ℕ)
    (hf : ∀ r, (f r).length = k) :
    ∀ (rows r c : ℕ), r < rows → c < k →
      ((List.range rows).flatMap f)[r * k + c]? = (f r)[c]? := by
  intro rows
  induction rows with
  | zero => intro r c hr _; exact absurd hr (Nat.not_lt_zero r)
  | succ n ih =>
      intro r c hr hc
      have hlen : ((List.range n).flatMap f).length = n * k := by
        rw [length_flatMap_const f k _ (fun a _ => hf a), List.length_range]
      rw [List.range_succ, List.flatMap_append, List.flatMap_singleton]
      by_cases hrn : r < n
      · rw [List.getElem?_append_left (by
          rw [hlen]
          calc r * k + c < r * k + k := by omega
            _ = (r + 1) * k := (Nat.succ_mul r k).symm
            _ ≤ n * k := Nat.mul_le_mul_right k hrn)]
        exact ih r c hrn hc
      · have hreq : r = n := by omega
        subst hreq
        rw [List.getElem?_append_right (by rw [hlen]; exact Nat.le_add_right _ _)]
        rw [hlen]
        have hix : r * k + c - r * k = c := by omega
        rw [hix]

/-- C7.  For every image and every `rows ≥ 1`, `cols ≥ 1`, `cropImageGrid`
cuts exactly `rows * cols` cells in row-major order (the cell of row `r`,
column `c` sits at index `r * cols + c`), each cell's source rectangle is
computed from `cellWidth = width / cols` and `cellHeight = height / rows`, and
the cells' source regions cover the whole source image: every point of the
image lies inside some cell's rectangle. -/
theorem cropImageGrid_tiling (width height : ℚ) (rows cols : ℕ)
    (hr : 1 ≤ rows) (hc : 1 ≤ cols) :
    (cropImageGrid width height rows cols).length = rows * cols ∧
      (∀ r c : ℕ, r < rows → c < cols →
        (cropImageGrid width height rows cols)[r * cols + c]? =
          some { x := c * (width / cols), y := r * (height / rows),
                 w := width / cols, h := height / rows }) ∧
      (∀ px py : ℚ, 0 ≤ px → px < width → 0 ≤ py → py < height →
        ∃ cell ∈ cropImageGrid width height rows cols,
          cell.x ≤ px ∧ px < cell.x + cell.w ∧ cell.y ≤ py ∧ py < cell.y + cell.h) := by
  refine ⟨?_, ?_, ?_⟩
  · rw [cropImageGrid_def, length_flatMap_const _ cols _ (fun a _ => by simp),
      List.length_range]
  · intro r c hrlt hclt
    rw [cropImageGrid_def, flatMap_range_getElem? _ cols (fun a => by simp) rows r c hrlt hclt,
      List.getElem?_map, List.getElem?_range hclt, Option.map_some']
  · intro px py hpx0 hpxw hpy0 hpyh
    have hwpos : (0 : ℚ) < width := lt_of_le_of_lt hpx0 hpxw
    have hhpos : (0 : ℚ) < height := lt_of_le_of_lt hpy0 hpyh
    have hcolsQ : (0 : ℚ) < (cols : ℚ) := by exact_mod_cast Nat.lt_of_lt_of_le Nat.zero_lt_one hc
    have hrowsQ : (0 : ℚ) < (rows : ℚ) := by exact_mod_cast Nat.lt_of_lt_of_le Nat.zero_lt_one hr
    have hcw : (0 : ℚ) < width / cols := div_pos hwpos hcolsQ
    have hch : (0 : ℚ) < height / rows := div_pos hhpos hrowsQ
    have hdivx : (0 : ℚ) ≤ px / (width / cols) := div_nonneg hpx0 hcw.le
    have hdivy : (0 : ℚ) ≤ py / (height / rows) := div_nonneg hpy0 hch.le
    have hcend : (width / cols) * (cols : ℚ) = width := div_mul_cancel₀ width hcolsQ.ne'
    have hrend : (height / rows) * (rows : ℚ) = height := div_mul_cancel₀ height hrowsQ.ne'
    have hcbound : ⌊px / (width / cols)⌋₊ < cols := by
      rw [Nat.floor_lt hdivx, div_lt_iff₀ hcw, mul_comm, hcend]
      exact hpxw
    have hrbound : ⌊py / (height / rows)⌋₊ < rows := by
      rw [Nat.floor_lt hdivy, div_lt_iff₀ hch, mul_comm, hrend]
      exact hpyh
    refine ⟨{ x := (⌊px / (width / cols)⌋₊ : ℚ) * (width / cols),
              y := (⌊py / (height / rows)⌋₊ : ℚ) * (height / rows),
              w := width / cols, h := height / rows }, ?_, ?_, ?_, ?_, ?_⟩
    · rw [cropImageGrid_def]
      exact List.mem_flatMap_of_mem (List.mem_range.mpr hrbound)
        (List.mem_map_of_mem _ (List.mem_range.mpr hcbound))
    · calc (⌊px / (width / cols)⌋₊ : ℚ) * (width / cols)
          ≤ (px / (width / cols)) * (width / cols) :=
            mul_le_mul_of_nonneg_right (Nat.floor_le hdivx) hcw.le
        _ = px := div_mul_cancel₀ px hcw.ne'
    · show px < (⌊px / (width / cols)⌋₊ : ℚ) * (width / cols) + width / cols
      have hlt : px / (width / cols) < (⌊px / (width / cols)⌋₊ : ℚ) + 1 :=
        Nat.lt_floor_add_one _
      calc px = (px / (width / cols)) * (width / cols) := (div_mul_cancel₀ px hcw.ne').symm
        _ < ((⌊px / (width / cols)⌋₊ : ℚ) + 1) * (width / cols) :=
            mul_lt_mul_of_pos_right hlt hcw
        _ = (⌊px / (width / cols)⌋₊ : ℚ) * (width / cols) + width / cols := by ring
    · calc (⌊py / (height / rows)⌋₊ : ℚ) * (height / rows)
          ≤ (py / (height / rows)) * (height / rows) :=
            mul_le_mul_of_nonneg_right (Nat.floor_le hdivy) hch.le
        _ = py := div_mul_cancel₀ py hch.ne'
    · show py < (⌊py / (height / rows)⌋₊ : ℚ) * (height / rows) + height / rows
      have hlt : py / (height / rows) < (⌊py / (height / rows)⌋₊ : ℚ) + 1 :=
        Nat.lt_floor_add_one _
      calc py = (py / (height / rows)) * (height / rows) := (div_mul_cancel₀ py hch.ne').symm
        _ < ((⌊py / (height / rows)⌋₊ : ℚ) + 1) * (height / rows) :=
            mul_lt_mul_of_pos_right hlt hch
        _ = (⌊py / (height / rows)⌋₊ : ℚ) * (height / rows) + height / rows := by ring

/-- Witness for C7: a 4×4 image cut into a 2×2 grid. -/
theorem cropImageGrid_tiling_witness :
    (cropImageGrid 4 4 2 2).length = 2 * 2 ∧
      (∀ r c : ℕ, r < 2 → c < 2 →
        (cropImageGrid 4 4 2 2)[r * 2 + c]? =
          some { x := c * ((4 : ℚ) / 2), y := r * ((4 : ℚ) / 2),
                 w := (4 : ℚ) / 2, h := (4 : ℚ) / 2 }) ∧
      (∀ px py : ℚ, 0 ≤ px → px < 4 → 0 ≤ py → py < 4 →
        ∃ cell ∈ cropImageGrid 4 4 2 2,
          cell.x ≤ px ∧ px < cell.x + cell.w ∧ cell.y ≤ py ∧ py < cell.y + cell.h) :=
  cropImageGrid_tiling 4 4 2 2 (by norm_num) (by norm_num)

/-- C9.  In every collection state reachable by sequences of the public
operations — upload, grid-crop, processing (including the error outcome),
touch-up save, role assignment and removal — every item's processed raster is
non-null exactly when its status is `'done'`. -/
theorem processedBlob_iff_done (st : List StickerItem) (h : Reachable st) :
    ∀ s ∈ st, (s.processedBlob ≠ Option.none ↔ s.status = Status.done) := by
  induction h with
  | nil => intro s hs; exact absurd hs (List.not_mem_nil s)
  | step hr hstep ih =>
      cases hstep with
      | upload id url file =>
          intro s hs
          rcases List.mem_append.mp hs with hs | hs
          · exact ih s hs
          · rw [List.mem_singleton] at hs
            subst hs
            simp [createStickerItem]
      | gridCropItem id url blob flag =>
          intro s hs
          rcases List.mem_append.mp hs with hs | hs
          · exact ih s hs
          · rw [List.mem_singleton] at hs
            subst hs
            simp [createStickerItem]
      | processStart id hguard =>
          intro s hs
          obtain ⟨s₀, hs₀, rfl⟩ := List.mem_map.mp hs
          by_cases hid : s₀.id = id
          · rw [if_pos hid]
            have hnd : s₀.status ≠ Status.done := hguard s₀ hs₀ hid
            have hblob : s₀.processedBlob = Option.none := by
              by_contra hb
              exact hnd ((ih s₀ hs₀).mp hb)
            simp [hblob]
          · rw [if_neg hid]
            exact ih s₀ hs₀
      | processSuccess id url blob =>
          intro s hs
          obtain ⟨s₀, hs₀, rfl⟩ := List.mem_map.mp hs
          by_cases hid : s₀.id = id
          · rw [if_pos hid]
            simp
          · rw [if_neg hid]
            exact ih s₀ hs₀
      | processFailure id hguard =>
          intro s hs
          obtain ⟨s₀, hs₀, rfl⟩ := List.mem_map.mp hs
          by_cases hid : s₀.id = id
          · rw [if_pos hid]
            have hproc : s₀.status = Status.processing := hguard s₀ hs₀ hid
            have hblob : s₀.processedBlob = Option.none := by
              by_contra hb
              have := (ih s₀ hs₀).mp hb
              rw [hproc] at this
              exact Status.noConfusion this
            simp [hblob]
          · rw [if_neg hid]
            exact ih s₀ hs₀
      | save id url blob m t =>
          intro s hs
          obtain ⟨s₀, hs₀, rfl⟩ := List.mem_map.mp hs
          by_cases hid : s₀.id = id
          · rw [if_pos hid]
            simp
          · rw [if_neg hid]
            exact ih s₀ hs₀
      | setRoleMain id =>
          intro s hs
          obtain ⟨s₀, hs₀, rfl⟩ := List.mem_map.mp hs
          exact ih s₀ hs₀
      | setRoleTab id =>
          intro s hs
          obtain ⟨s₀, hs₀, rfl⟩ := List.mem_map.mp hs
          exact ih s₀ hs₀
      | removeItem id =>
          intro s hs
          exact ih s (List.mem_filter.mp hs).1

/-- Witness for C9 at a concrete reachable state: one uploaded (pending) item
followed by one grid-cropped (done) item. -/
theorem processedBlob_iff_done_witness :
    Reachable [createStickerItem 0 0 (some 0) Option.none,
        { createStickerItem 1 1 Option.none (some []) with isMain := true, isTab := true }] ∧
      (∀ s ∈ [createStickerItem 0 0 (some 0) Option.none,
          { createStickerItem 1 1 Option.none (some []) with isMain := true, isTab := true }],
        (s.processedBlob ≠ Option.none ↔ s.status = Status.done)) := by
  have hreach : Reachable [createStickerItem 0 0 (some 0) Option.none,
      { createStickerItem 1 1 Option.none (some []) with isMain := true, isTab := true }] :=
    Reachable.step (Reachable.step Reachable.nil (Step.upload [] 0 0 0))
      (Step.gridCropItem [createStickerItem 0 0 (some 0) Option.none] 1 1 [] true)
  exact ⟨hreach, processedBlob_iff_done _ hreach⟩

end LineEditor
